import Mathlib

/-!
Shallow embedding of the `ping` protocol handler of the tentacle repository
(`src/ping/src/lib.rs`).

Modelling conventions:
* `SystemTime` is modelled as an `Int`: nanoseconds since the Unix epoch
  (negative values are instants before the epoch).  `Duration` is a `Nat`
  of nanoseconds.
* The clock is passed explicitly: each hook that reads `SystemTime::now()`
  or `elapsed()` in the Rust code takes a `now : Int` parameter.
* The `FnvHashMap<SessionId, PingStatus>` registry is modelled as an
  association list `List (SessionId × PingStatus)`; iteration order of the
  hash map is unspecified in Rust, the list order plays that role here.
* Side effects on the `ServiceContext` (send_message, filter_broadcast,
  disconnect) and event emission through the channel sender are modelled
  as a list of `PingAction`s returned alongside the new handler state, in the
  order the Rust code performs them.  `try_send` failures only log and
  drop, so an `PingAction.emit` records the emission attempt.
* The flatbuffers-generated wire codec (`protocol_generated.rs`,
  `protocol_builder.rs`) is not part of the sources; `decode` below is
  modelled from the spec.  Outbound messages are kept abstract as
  `PingPayload` values in the actions.
-/

/-- Session identifier assigned by the host transport. -/
abbrev SessionId := Nat

/-- Stable peer identity derived from the remote public key. -/
abbrev PeerId := Nat

/-- Remote public key as supplied by the host (opaque here). -/
abbrev PubKey := Nat

/-- `pubkey.peer_id()`: derivation of the peer identity from the key. -/
def PubKey.peer_id (pk : PubKey) : PeerId := pk

/-- `SystemTime`: nanoseconds since the Unix epoch, possibly negative. -/
abbrev SysTime := Int

/-- Nanoseconds in one second (`Duration::as_secs` divides by this). -/
def nsPerSec : Nat := 1000000000

/-- `SystemTime::duration_since(UNIX_EPOCH)`: `some` of the duration in
nanoseconds when the instant is not before the epoch, `none` otherwise
(the `Err` case of the Rust `Result`). -/
def durationSinceEpoch (t : SysTime) : Option Nat :=
  if 0 ≤ t then some t.toNat else none

/-- `const SEND_PING_TOKEN: u64 = 0`. -/
def SEND_PING_TOKEN : Nat := 0

/-- `const CHECK_TIMEOUT_TOKEN: u64 = 1`. -/
def CHECK_TIMEOUT_TOKEN : Nat := 1

/-- Ping protocol events (enum `Event` in the source). -/
inductive Event where
  | Ping (peer : PeerId)
  | Pong (peer : PeerId) (rtt : Nat)
  | Timeout (peer : PeerId)
  | UnexpectedError (peer : PeerId)
deriving DecidableEq

/-- The tagged union carried on the wire (enum `PingPayload` of the
generated schema): `NONE`, `Ping{nonce}`, `Pong{nonce}`. -/
inductive PingPayload where
  | NONE
  | Ping (nonce : Nat)
  | Pong (nonce : Nat)
deriving DecidableEq

/-- Effects the handler performs on its host context, in program order. -/
inductive PingAction where
  | sendMessage (sid : SessionId) (proto : Nat) (msg : PingPayload)
  | filterBroadcast (sids : List SessionId) (proto : Nat) (msg : PingPayload)
  | disconnect (sid : SessionId)
  | emit (e : Event)
deriving DecidableEq

/-- `PingStatus` of a peer (struct `PingStatus` in the source). -/
structure PingStatus where
  /-- Are we currently pinging this peer? -/
  processing : Bool
  /-- The time we last send ping to this peer (`last_ping`). -/
  last_ping : SysTime
  peer_id : PeerId
deriving DecidableEq

/-- `PingStatus::nonce`: `last_ping.duration_since(UNIX_EPOCH)
.map(|dur| dur.as_secs()).unwrap_or(0) as u32`. -/
def PingStatus.nonce (ps : PingStatus) : Nat :=
  (((durationSinceEpoch ps.last_ping).map (fun dur => dur / nsPerSec)).getD 0) % 2 ^ 32

/-- `PingStatus::elapsed`: `last_ping.elapsed().unwrap_or(0)`, with the
current instant passed explicitly. -/
def PingStatus.elapsed (ps : PingStatus) (now : SysTime) : Nat :=
  if ps.last_ping ≤ now then (now - ps.last_ping).toNat else 0

/-- The nonce a record stamped at instant `t` carries (helper; by
definition `ps.nonce` only depends on `ps.last_ping`). -/
def nonceAt (t : SysTime) : Nat :=
  PingStatus.nonce { processing := true, last_ping := t, peer_id := 0 }

/-- State of the protocol handler (struct `PingHandler`): configuration
and the session registry.  The event sender is externalised into the
returned `PingAction` lists. -/
structure PingHandler where
  proto_id : Nat
  interval : Nat
  timeout : Nat
  connected_session_ids : List (SessionId × PingStatus)
deriving DecidableEq

/-- `HashMap::get` on the association-list registry. -/
def getStatus : List (SessionId × PingStatus) → SessionId → Option PingStatus
  | [], _ => none
  | (k, v) :: rest, s => if k = s then some v else getStatus rest s

/-- In-place update of an existing entry (`HashMap::get_mut` followed by
mutation). -/
def setStatus : List (SessionId × PingStatus) → SessionId → PingStatus →
    List (SessionId × PingStatus)
  | [], _, _ => []
  | (k, v) :: rest, s, v' =>
      if k = s then (k, v') :: rest else (k, v) :: setStatus rest s v'

/-- `HashMap::entry(..).or_insert_with(..)`: keep the map unchanged when
the key is present, insert the given record otherwise. -/
def orInsert (m : List (SessionId × PingStatus)) (s : SessionId)
    (v : PingStatus) : List (SessionId × PingStatus) :=
  match getStatus m s with
  | some _ => m
  | none => (s, v) :: m

/-- `HashMap::remove`. -/
def removeStatus (m : List (SessionId × PingStatus)) (s : SessionId) :
    List (SessionId × PingStatus) :=
  m.filter (fun p => !(p.1 == s))

/-- Modelled from the spec: the wire codec of the generated flatbuffers
code (`protocol_generated.rs` / `protocol_builder.rs`), which is absent
from the sources.  Per the spec the payload is a tagged union — a variant
tag in `{None, Ping, Pong}` followed by a 32-bit unsigned nonce for
Ping/Pong — and decode returns the `None` variant for anything it cannot
interpret (wrong tag, truncated buffer, schema mismatch), never failing
fatally.  Bytes are `Nat`s; a list element `≥ 256` is not a byte and the
input is uninterpretable. -/
def decode : List Nat → PingPayload
  | [1, a, b, c, d] =>
      if a < 256 ∧ b < 256 ∧ c < 256 ∧ d < 256 then
        PingPayload.Ping (a + 256 * b + 65536 * c + 16777216 * d)
      else PingPayload.NONE
  | [2, a, b, c, d] =>
      if a < 256 ∧ b < 256 ∧ c < 256 ∧ d < 256 then
        PingPayload.Pong (a + 256 * b + 65536 * c + 16777216 * d)
      else PingPayload.NONE
  | _ => PingPayload.NONE

/-- `PingHandler::init`: registers the two periodic notifies.  Modelled
as the pair of (interval, token) registrations it performs. -/
def PingHandler.init (h : PingHandler) : List (Nat × Nat) :=
  [(h.interval, SEND_PING_TOKEN), (h.timeout, CHECK_TIMEOUT_TOKEN)]

/-- `PingHandler::connected`: with a resolvable remote public key, insert
an `Idle` record stamped `now` if none exists; without one, instruct the
host to disconnect the session. -/
def PingHandler.connected (h : PingHandler) (sid : SessionId)
    (remote_pubkey : Option PubKey) (now : SysTime) :
    PingHandler × List PingAction :=
  match remote_pubkey with
  | some pk =>
      ({ h with
          connected_session_ids :=
            orInsert h.connected_session_ids sid
              { last_ping := now, processing := false,
                peer_id := pk.peer_id } }, [])
  | none => (h, [PingAction.disconnect sid])

/-- `PingHandler::disconnected`: remove the record unconditionally. -/
def PingHandler.disconnected (h : PingHandler) (sid : SessionId) :
    PingHandler × List PingAction :=
  ({ h with
      connected_session_ids := removeStatus h.connected_session_ids sid },
   [])

/-- `PingHandler::received`: drop the message when the session is
unknown; otherwise decode and dispatch on the payload variant. -/
def PingHandler.received (h : PingHandler) (sid : SessionId)
    (data : List Nat) (now : SysTime) : PingHandler × List PingAction :=
  match getStatus h.connected_session_ids sid with
  | none => (h, [])
  | some ps =>
      match decode data with
      | PingPayload.Ping nonce =>
          (h, [PingAction.sendMessage sid h.proto_id (PingPayload.Pong nonce),
               PingAction.emit (Event.Ping ps.peer_id)])
      | PingPayload.Pong nonce =>
          if (ps.processing, ps.nonce) = (true, nonce) then
            let ps' := { ps with processing := false }
            ({ h with
                connected_session_ids :=
                  setStatus h.connected_session_ids sid ps' },
             [PingAction.emit (Event.Pong ps.peer_id (ps'.elapsed now))])
          else
            (h, [PingAction.emit (Event.UnexpectedError ps.peer_id)])
      | PingPayload.NONE =>
          (h, [PingAction.emit (Event.UnexpectedError ps.peer_id)])

/-- Result of `PingHandler::notify`: normal return, or the `panic!` on an
unknown token (carrying the offending token). -/
inductive NotifyResult where
  | ok (h : PingHandler) (acts : List PingAction)
  | fatal (token : Nat)
deriving DecidableEq

/-- The `iter_mut().filter_map(..)` scan of the send-ping tick: returns
the mutated registry together with the collected `(session_id, nonce)`
pairs of the sessions that were flipped from idle to processing. -/
def sendPingScan (now : SysTime) :
    List (SessionId × PingStatus) →
    List (SessionId × PingStatus) × List (SessionId × Nat)
  | [] => ([], [])
  | (sid, ps) :: rest =>
      let r := sendPingScan now rest
      if ps.processing then ((sid, ps) :: r.1, r.2)
      else
        let ps' := { ps with processing := true, last_ping := now }
        ((sid, ps') :: r.1, (sid, ps'.nonce) :: r.2)

/-- `PingHandler::notify`: dispatch on the timer token; an unrecognized
token is `panic!("unknown token {}")`. -/
def PingHandler.notify (h : PingHandler) (token : Nat) (now : SysTime) :
    NotifyResult :=
  if token = SEND_PING_TOKEN then
    let r := sendPingScan now h.connected_session_ids
    let h' := { h with connected_session_ids := r.1 }
    match r.2 with
    | [] => NotifyResult.ok h' []
    | (_, nonce) :: _ =>
        NotifyResult.ok h'
          [PingAction.filterBroadcast (r.2.map Prod.fst) h.proto_id
            (PingPayload.Ping nonce)]
  else if token = CHECK_TIMEOUT_TOKEN then
    NotifyResult.ok h
      ((h.connected_session_ids.filter
          (fun p => p.2.processing && decide (h.timeout ≤ p.2.elapsed now))).map
        (fun p => PingAction.emit (Event.Timeout p.2.peer_id)))
  else NotifyResult.fatal token

/-- One host-invoked lifecycle operation of the engine. -/
inductive Op where
  | connect (sid : SessionId) (remote_pubkey : Option PubKey)
  | disconnect (sid : SessionId)
  | receive (sid : SessionId) (data : List Nat)
  | timer (token : Nat)

/-- One lifecycle step of the handler; `none` when the operation panics
(unknown timer token). -/
def PingHandler.step (h : PingHandler) (op : Op) (now : SysTime) :
    Option (PingHandler × List PingAction) :=
  match op with
  | Op.connect sid pk => some (h.connected sid pk now)
  | Op.disconnect sid => some (h.disconnected sid)
  | Op.receive sid data => some (h.received sid data now)
  | Op.timer token =>
      match h.notify token now with
      | NotifyResult.ok h' acts => some (h', acts)
      | NotifyResult.fatal _ => none

/-- What the send-ping tick does to one record: skip it when a challenge
is outstanding, otherwise flip it to processing and stamp it `now`. -/
def challenge (now : SysTime) (p : SessionId × PingStatus) :
    SessionId × PingStatus :=
  if p.2.processing then p
  else (p.1, { p.2 with processing := true, last_ping := now })

/-! ### Concrete sample states used by the witnesses -/

/-- Sample idle record: stamped 5 s after the epoch, peer 42. -/
def exPS : PingStatus :=
  { processing := false, last_ping := 5000000000, peer_id := 42 }

/-- Sample record with an outstanding challenge (nonce 5). -/
def exPSp : PingStatus :=
  { processing := true, last_ping := 5000000000, peer_id := 42 }

/-- Sample handler whose session 1 is idle. -/
def exH : PingHandler :=
  { proto_id := 9, interval := 100, timeout := 200,
    connected_session_ids := [(1, exPS)] }

/-- Sample handler whose session 1 awaits a pong. -/
def exHp : PingHandler :=
  { proto_id := 9, interval := 100, timeout := 200,
    connected_session_ids := [(1, exPSp)] }

/-! ### Registry lemmas -/

/-- `orInsert` never disturbs an entry that is already found. -/
theorem getStatus_orInsert (m : List (SessionId × PingStatus))
    (s sid : SessionId) (v ps : PingStatus)
    (hs : getStatus m s = some ps) :
    getStatus (orInsert m sid v) s = some ps := by
  unfold orInsert
  cases hk : getStatus m sid with
  | some w => exact hs
  | none =>
      by_cases hes : sid = s
      · rw [hes] at hk
        rw [hk] at hs
        exact absurd hs (by simp)
      · simp [getStatus, hes, hs]

/-- Lookup after `removeStatus`. -/
theorem getStatus_removeStatus (m : List (SessionId × PingStatus))
    (sid s : SessionId) :
    getStatus (removeStatus m sid) s =
      if sid = s then none else getStatus m s := by
  induction m with
  | nil => simp [removeStatus, getStatus]
  | cons p rest ih =>
      obtain ⟨k, w⟩ := p
      by_cases hk : k = sid
      · subst hk
        simp only [removeStatus, List.filter] at ih ⊢
        simp only [beq_self_eq_true, Bool.not_true]
        rw [ih]
        by_cases hs : k = s
        · simp [hs]
        · simp [getStatus, hs, fun h : s = k => hs h.symm]
      · simp only [removeStatus, List.filter] at ih ⊢
        have : (k == sid) = false := by simp [hk]
        rw [this]
        simp only [Bool.not_false, getStatus]
        by_cases hs : k = s
        · subst hs
          have : ¬ sid = k := fun h => hk h.symm
          simp [this, getStatus]
        · simp only [hs, if_false, ih]

/-- Lookup after `setStatus`. -/
theorem getStatus_setStatus (m : List (SessionId × PingStatus))
    (k s : SessionId) (v : PingStatus) :
    getStatus (setStatus m k v) s =
      if k = s then (getStatus m k).map (fun _ => v) else getStatus m s := by
  induction m with
  | nil => simp [setStatus, getStatus]
  | cons p rest ih =>
      obtain ⟨a, w⟩ := p
      by_cases hak : a = k
      · subst hak
        simp only [setStatus, if_pos rfl, getStatus]
        by_cases has : a = s
        · simp [has]
        · simp [has, fun h : a = s => has h]
      · simp only [setStatus, if_neg hak, getStatus]
        by_cases has : a = s
        · subst has
          have hks : ¬ k = a := fun h => hak h.symm
          simp [hks]
        · simp [has, ih]

/-! ### Send-ping scan lemmas -/

/-- A record stamped at `now` carries the nonce `nonceAt now`, whatever
its other fields. -/
theorem nonce_after_stamp (ps : PingStatus) (now : SysTime) :
    PingStatus.nonce { ps with processing := true, last_ping := now } =
      nonceAt now := rfl

/-- The registry after the send-ping scan is the entrywise `challenge`. -/
theorem sendPingScan_fst (now : SysTime)
    (m : List (SessionId × PingStatus)) :
    (sendPingScan now m).1 = m.map (challenge now) := by
  induction m with
  | nil => rfl
  | cons p rest ih =>
      obtain ⟨sid, ps⟩ := p
      by_cases hp : ps.processing <;>
        simp [sendPingScan, challenge, hp, ih]

/-- The pairs collected by the send-ping scan: exactly the idle sessions,
each paired with the one nonce of this tick. -/
theorem sendPingScan_snd (now : SysTime)
    (m : List (SessionId × PingStatus)) :
    (sendPingScan now m).2 =
      (m.filter (fun p => !p.2.processing)).map
        (fun p => (p.1, nonceAt now)) := by
  induction m with
  | nil => rfl
  | cons p rest ih =>
      obtain ⟨sid, ps⟩ := p
      by_cases hp : ps.processing <;>
        simp [sendPingScan, hp, ih, nonce_after_stamp]

/-- `challenge` preserves the key and rewrites the record. -/
theorem challenge_eq (now : SysTime) (k : SessionId) (w : PingStatus) :
    challenge now (k, w) =
      (k, if w.processing then w
          else { w with processing := true, last_ping := now }) := by
  unfold challenge
  by_cases hw : w.processing <;> simp [hw]

/-- Lookup in the challenged registry. -/
theorem getStatus_map_challenge (now : SysTime)
    (m : List (SessionId × PingStatus)) (s : SessionId) :
    getStatus (m.map (challenge now)) s =
      (getStatus m s).map
        (fun ps => if ps.processing then ps
          else { ps with processing := true, last_ping := now }) := by
  induction m with
  | nil => rfl
  | cons p rest ih =>
      obtain ⟨k, w⟩ := p
      rw [List.map_cons, challenge_eq]
      simp only [getStatus, ih]
      by_cases hks : k = s <;> simp [hks]

/-- Full effect of the send-ping tick on handler state and actions. -/
theorem notify_send_eq (h : PingHandler) (now : SysTime) :
    h.notify SEND_PING_TOKEN now =
      NotifyResult.ok
        { h with connected_session_ids :=
            h.connected_session_ids.map (challenge now) }
        (if h.connected_session_ids.filter (fun p => !p.2.processing) = []
         then []
         else [PingAction.filterBroadcast
                ((h.connected_session_ids.filter
                    (fun p => !p.2.processing)).map Prod.fst)
                h.proto_id (PingPayload.Ping (nonceAt now))]) := by
  unfold PingHandler.notify
  rw [if_pos rfl]
  simp only [sendPingScan_fst, sendPingScan_snd]
  cases hfil : h.connected_session_ids.filter (fun p => !p.2.processing) with
  | nil => simp [hfil]
  | cons q qs => simp [hfil, List.map_map, Function.comp]

/-- Full effect of the check-timeout tick on handler state and actions. -/
theorem notify_check_eq (h : PingHandler) (now : SysTime) :
    h.notify CHECK_TIMEOUT_TOKEN now =
      NotifyResult.ok h
        ((h.connected_session_ids.filter
            (fun p => p.2.processing &&
              decide (h.timeout ≤ p.2.elapsed now))).map
          (fun p => PingAction.emit (Event.Timeout p.2.peer_id))) := by
  unfold PingHandler.notify
  rw [if_neg (by decide), if_pos rfl]

/-! ### Claim theorems -/

/-- C10: for every liveness record, the derived nonce equals the
whole-second count of `last_ping` since the Unix epoch reduced modulo
`2 ^ 32`, and is `0` whenever `last_ping` lies before the epoch; being a
function of `last_ping` alone, the derivation is total and deterministic
in `last_ping`. -/
theorem nonce_closed_form (ps : PingStatus) :
    ps.nonce =
      if 0 ≤ ps.last_ping then ps.last_ping.toNat / nsPerSec % 2 ^ 32
      else 0 := by
  unfold PingStatus.nonce durationSinceEpoch
  by_cases hp : 0 ≤ ps.last_ping <;> simp [hp]

/-- C4: a connect invocation whose session carries no remote public key
makes the engine instruct the host to disconnect that session, creates
no liveness record, and emits no event. -/
theorem connected_no_identity (h : PingHandler) (sid : SessionId)
    (now : SysTime) :
    h.connected sid none now = (h, [PingAction.disconnect sid]) := rfl

/-- C7: the connect hook is idempotent per session — when a record for
the session already exists, a second connect invocation leaves the whole
handler state (hence the record's `processing`, `last_ping` and
`peer_id`) unchanged. -/
theorem connected_idempotent (h : PingHandler) (sid : SessionId)
    (pk : Option PubKey) (now : SysTime) (ps : PingStatus)
    (hps : getStatus h.connected_session_ids sid = some ps) :
    (h.connected sid pk now).1 = h := by
  cases pk with
  | none => rfl
  | some k =>
      simp only [PingHandler.connected, orInsert, hps]

/-- Witness for C7 at a concrete handler. -/
theorem connected_idempotent_witness :
    getStatus exH.connected_session_ids 1 = some exPS ∧
      (exH.connected 1 (some 7) 123).1 = exH :=
  ⟨rfl, connected_idempotent exH 1 (some 7) 123 exPS rfl⟩

/-- C8: on receipt of `Ping{nonce}` for a known session the engine sends
back a `Pong` carrying exactly the received nonce to the same session,
emits `Event::Ping(peer)`, and leaves the handler state — in particular
the record's `processing` and `last_ping` — unchanged, regardless of the
record's current state. -/
theorem ping_echoed (h : PingHandler) (sid : SessionId) (data : List Nat)
    (now : SysTime) (ps : PingStatus) (n : Nat)
    (hps : getStatus h.connected_session_ids sid = some ps)
    (hdec : decode data = PingPayload.Ping n) :
    h.received sid data now =
      (h, [PingAction.sendMessage sid h.proto_id (PingPayload.Pong n),
           PingAction.emit (Event.Ping ps.peer_id)]) := by
  unfold PingHandler.received
  rw [hps, hdec]

/-- Witness for C8 at a concrete handler and byte string. -/
theorem ping_echoed_witness :
    (getStatus exHp.connected_session_ids 1 = some exPSp ∧
        decode [1, 5, 0, 0, 0] = PingPayload.Ping 5) ∧
      exHp.received 1 [1, 5, 0, 0, 0] 123 =
        (exHp, [PingAction.sendMessage 1 9 (PingPayload.Pong 5),
                PingAction.emit (Event.Ping 42)]) :=
  ⟨⟨rfl, by decide⟩,
   ping_echoed exHp 1 [1, 5, 0, 0, 0] 123 exPSp 5 rfl (by decide)⟩

/-- C6: decoding is total — `decode` maps every byte sequence to one of
the three payload variants, returning `NONE` rather than failing on
anything it cannot interpret — and for a known session an input decoding
to `NONE` results only in `Event::UnexpectedError(peer)`, with the
handler state unchanged. -/
theorem undecodable_bytes (h : PingHandler) (sid : SessionId)
    (data : List Nat) (now : SysTime) (ps : PingStatus)
    (hps : getStatus h.connected_session_ids sid = some ps)
    (hdec : decode data = PingPayload.NONE) :
    h.received sid data now =
      (h, [PingAction.emit (Event.UnexpectedError ps.peer_id)]) := by
  unfold PingHandler.received
  rw [hps, hdec]

/-- Witness for C6 at a concrete handler and unrelated bytes. -/
theorem undecodable_bytes_witness :
    (getStatus exH.connected_session_ids 1 = some exPS ∧
        decode [99, 1, 2] = PingPayload.NONE) ∧
      exH.received 1 [99, 1, 2] 123 =
        (exH, [PingAction.emit (Event.UnexpectedError 42)]) :=
  ⟨⟨rfl, rfl⟩, undecodable_bytes exH 1 [99, 1, 2] 123 exPS rfl rfl⟩

/-- C9: every timer token other than the send-ping and check-timeout
tokens registered at initialization makes the timer hook panic rather
than silently ignore the token. -/
theorem unknown_token_fatal (h : PingHandler) (token : Nat) (now : SysTime)
    (h0 : token ≠ SEND_PING_TOKEN) (h1 : token ≠ CHECK_TIMEOUT_TOKEN) :
    h.notify token now = NotifyResult.fatal token := by
  unfold PingHandler.notify
  rw [if_neg h0, if_neg h1]

/-- Witness for C9 at a concrete unknown token. -/
theorem unknown_token_fatal_witness :
    ((7 : Nat) ≠ SEND_PING_TOKEN ∧ (7 : Nat) ≠ CHECK_TIMEOUT_TOKEN) ∧
      exH.notify 7 123 = NotifyResult.fatal 7 :=
  ⟨⟨by decide, by decide⟩,
   unknown_token_fatal exH 7 123 (by decide) (by decide)⟩

/-- C1: a received `Pong{nonce}` for a connected session with a record is
accepted iff the record has `processing = true` and the nonce equals the
nonce derived from `last_ping`; on acceptance the engine clears
`processing`, reports the elapsed time since `last_ping` as the
round-trip time in `Event::Pong(peer, rtt)`, and changes nothing else;
on rejection it emits `Event::UnexpectedError(peer)` and leaves the
whole state unchanged. -/
theorem pong_checked (h : PingHandler) (sid : SessionId) (data : List Nat)
    (now : SysTime) (ps : PingStatus) (n : Nat)
    (hps : getStatus h.connected_session_ids sid = some ps)
    (hdec : decode data = PingPayload.Pong n) :
    ((ps.processing = true ∧ ps.nonce = n) →
      h.received sid data now =
        ({ h with
            connected_session_ids :=
              setStatus h.connected_session_ids sid
                { ps with processing := false } },
         [PingAction.emit (Event.Pong ps.peer_id (ps.elapsed now))])) ∧
    (¬ (ps.processing = true ∧ ps.nonce = n) →
      h.received sid data now =
        (h, [PingAction.emit (Event.UnexpectedError ps.peer_id)])) := by
  unfold PingHandler.received
  simp only [hps, hdec]
  constructor
  · intro hc
    rw [if_pos (show (ps.processing, ps.nonce) = (true, n) by
      rw [hc.1, hc.2])]
    rfl
  · intro hc
    rw [if_neg (fun he : (ps.processing, ps.nonce) = (true, n) =>
      hc ⟨congrArg Prod.fst he, congrArg Prod.snd he⟩)]

/-- Witness for C1: an accepted pong at a concrete handler. -/
theorem pong_checked_witness :
    (getStatus exHp.connected_session_ids 1 = some exPSp ∧
        decode [2, 5, 0, 0, 0] = PingPayload.Pong 5 ∧
        exPSp.processing = true ∧ exPSp.nonce = 5) ∧
      exHp.received 1 [2, 5, 0, 0, 0] 7000000000 =
        ({ exHp with
            connected_session_ids :=
              setStatus exHp.connected_session_ids 1
                { exPSp with processing := false } },
         [PingAction.emit
            (Event.Pong exPSp.peer_id (exPSp.elapsed 7000000000))]) :=
  ⟨⟨rfl, by decide, rfl, by decide⟩,
   (pong_checked exHp 1 [2, 5, 0, 0, 0] 7000000000 exPSp 5 rfl
      (by decide)).1 ⟨rfl, by decide⟩⟩

/-- C2: on a send-ping tick every record with `processing = false` is
flipped to `processing = true` and stamped with the tick's single `now`
snapshot, records with `processing = true` are untouched, all challenged
sessions carry the identical nonce `nonceAt now`, one `Ping` payload
carrying that nonce is broadcast to exactly the challenged sessions, and
nothing is sent when no session is eligible. -/
theorem send_ping_tick (h : PingHandler) (now : SysTime) :
    (h.notify SEND_PING_TOKEN now =
      NotifyResult.ok
        { h with connected_session_ids :=
            h.connected_session_ids.map (challenge now) }
        (if h.connected_session_ids.filter (fun p => !p.2.processing) = []
         then []
         else [PingAction.filterBroadcast
                ((h.connected_session_ids.filter
                    (fun p => !p.2.processing)).map Prod.fst)
                h.proto_id (PingPayload.Ping (nonceAt now))])) ∧
    ∀ sid ps, getStatus h.connected_session_ids sid = some ps →
      getStatus (h.connected_session_ids.map (challenge now)) sid =
        some (if ps.processing then ps
              else { ps with processing := true, last_ping := now }) := by
  constructor
  · exact notify_send_eq h now
  · intro sid ps hps
    rw [getStatus_map_challenge, hps]
    rfl

/-- Witness for C2 at a concrete handler with one idle session. -/
theorem send_ping_tick_witness :
    getStatus exH.connected_session_ids 1 = some exPS ∧
      getStatus (exH.connected_session_ids.map (challenge 123)) 1 =
        some (if exPS.processing then exPS
              else { exPS with processing := true, last_ping := 123 }) :=
  ⟨rfl, (send_ping_tick exH 123).2 1 exPS rfl⟩

/-- C3: a check-timeout tick leaves the handler state completely
unchanged — so an unresponsive session produces the same `Timeout` again
on every later tick — and emits exactly one `Event::Timeout(peer)` per
record with `processing = true` and elapsed time since `last_ping` at
least the configured timeout; the membership characterization states the
iff per session. -/
theorem check_timeout_tick (h : PingHandler) (now : SysTime) :
    h.notify CHECK_TIMEOUT_TOKEN now =
      NotifyResult.ok h
        ((h.connected_session_ids.filter
            (fun p => p.2.processing &&
              decide (h.timeout ≤ p.2.elapsed now))).map
          (fun p => PingAction.emit (Event.Timeout p.2.peer_id))) ∧
    ∀ pid,
      PingAction.emit (Event.Timeout pid) ∈
          ((h.connected_session_ids.filter
              (fun p => p.2.processing &&
                decide (h.timeout ≤ p.2.elapsed now))).map
            (fun p => PingAction.emit (Event.Timeout p.2.peer_id))) ↔
        ∃ sid ps, (sid, ps) ∈ h.connected_session_ids ∧
          ps.processing = true ∧ h.timeout ≤ ps.elapsed now ∧
          ps.peer_id = pid := by
  constructor
  · exact notify_check_eq h now
  · intro pid
    simp only [List.mem_map, List.mem_filter, Bool.and_eq_true,
      decide_eq_true_eq]
    constructor
    · rintro ⟨⟨sid, ps⟩, ⟨hmem, hproc, hto⟩, heq⟩
      refine ⟨sid, ps, hmem, hproc, hto, ?_⟩
      simpa using heq
    · rintro ⟨sid, ps, hmem, hproc, hto, hpid⟩
      exact ⟨(sid, ps), ⟨hmem, hproc, hto⟩, by rw [hpid]⟩

/-- Witness for C3 at a concrete timed-out session. -/
theorem check_timeout_tick_witness :
    PingAction.emit (Event.Timeout 42) ∈
      ((exHp.connected_session_ids.filter
          (fun p => p.2.processing &&
            decide (exHp.timeout ≤ p.2.elapsed 7000000000))).map
        (fun p => PingAction.emit (Event.Timeout p.2.peer_id))) :=
  ((check_timeout_tick exHp 7000000000).2 42).mpr
    ⟨1, exPSp, by decide, rfl, by decide, rfl⟩


/-- C5: across every engine operation, an existing record's `last_ping`
changes only when a new challenge is issued, that is, only on the
transition from `processing = false` to `processing = true` (first
conjunct), and never on receipt of any message: every receive operation
leaves the surviving record's `last_ping` exactly as it was (second
conjunct). -/
theorem last_ping_only_on_challenge (h h' : PingHandler) (op : Op)
    (now : SysTime) (acts : List PingAction) (s : SessionId)
    (ps ps' : PingStatus)
    (hstep : h.step op now = some (h', acts))
    (hbefore : getStatus h.connected_session_ids s = some ps)
    (hafter : getStatus h'.connected_session_ids s = some ps') :
    (ps'.last_ping ≠ ps.last_ping →
      ps.processing = false ∧ ps'.processing = true) ∧
    (∀ sid data, op = Op.receive sid data →
      ps'.last_ping = ps.last_ping) := by
  cases op with
  | connect sid pk =>
      have heq : ps'.last_ping = ps.last_ping := by
        cases pk with
        | none =>
            simp only [PingHandler.step, PingHandler.connected,
              Option.some.injEq, Prod.mk.injEq] at hstep
            obtain ⟨hh, -⟩ := hstep
            have hcsi : h'.connected_session_ids =
                h.connected_session_ids := by
              rw [← hh]
            rw [hcsi, hbefore] at hafter
            injection hafter with he
            rw [he]
        | some pk =>
            simp only [PingHandler.step, PingHandler.connected,
              Option.some.injEq, Prod.mk.injEq] at hstep
            obtain ⟨hh, -⟩ := hstep
            have hcsi : h'.connected_session_ids =
                orInsert h.connected_session_ids sid
                  { last_ping := now, processing := false,
                    peer_id := pk.peer_id } := by
              rw [← hh]
            rw [hcsi,
              getStatus_orInsert h.connected_session_ids s sid _ ps hbefore]
              at hafter
            injection hafter with he
            rw [he]
      exact ⟨fun hne => absurd heq hne, fun _ _ hop => by cases hop⟩
  | disconnect sid =>
      have heq : ps'.last_ping = ps.last_ping := by
        simp only [PingHandler.step, PingHandler.disconnected,
          Option.some.injEq, Prod.mk.injEq] at hstep
        obtain ⟨hh, -⟩ := hstep
        have hcsi : h'.connected_session_ids =
            removeStatus h.connected_session_ids sid := by
          rw [← hh]
        rw [hcsi, getStatus_removeStatus] at hafter
        by_cases hs : sid = s
        · rw [if_pos hs] at hafter
          cases hafter
        · rw [if_neg hs, hbefore] at hafter
          injection hafter with he
          rw [he]
      exact ⟨fun hne => absurd heq hne, fun _ _ hop => by cases hop⟩
  | receive sid data =>
      have heq : ps'.last_ping = ps.last_ping := by
        simp only [PingHandler.step] at hstep
        unfold PingHandler.received at hstep
        cases hget : getStatus h.connected_session_ids sid with
        | none =>
            simp only [hget, Option.some.injEq, Prod.mk.injEq] at hstep
            obtain ⟨hh, -⟩ := hstep
            have hcsi : h'.connected_session_ids =
                h.connected_session_ids := by
              rw [← hh]
            rw [hcsi, hbefore] at hafter
            injection hafter with he
            rw [he]
        | some psx =>
            cases hdec : decode data with
            | NONE =>
                simp only [hget, hdec, Option.some.injEq,
                  Prod.mk.injEq] at hstep
                obtain ⟨hh, -⟩ := hstep
                have hcsi : h'.connected_session_ids =
                    h.connected_session_ids := by
                  rw [← hh]
                rw [hcsi, hbefore] at hafter
                injection hafter with he
                rw [he]
            | Ping n =>
                simp only [hget, hdec, Option.some.injEq,
                  Prod.mk.injEq] at hstep
                obtain ⟨hh, -⟩ := hstep
                have hcsi : h'.connected_session_ids =
                    h.connected_session_ids := by
                  rw [← hh]
                rw [hcsi, hbefore] at hafter
                injection hafter with he
                rw [he]
            | Pong n =>
                simp only [hget, hdec] at hstep
                by_cases hc : (psx.processing, psx.nonce) = (true, n)
                · rw [if_pos hc] at hstep
                  simp only [Option.some.injEq, Prod.mk.injEq] at hstep
                  obtain ⟨hh, -⟩ := hstep
                  have hcsi : h'.connected_session_ids =
                      setStatus h.connected_session_ids sid
                        { psx with processing := false } := by
                    rw [← hh]
                  rw [hcsi, getStatus_setStatus] at hafter
                  by_cases hs : sid = s
                  · subst hs
                    rw [if_pos rfl, hget] at hafter
                    rw [hbefore] at hget
                    injection hget with he2
                    simp only [Option.map_some'] at hafter
                    injection hafter with he
                    rw [← he, he2]
                  · rw [if_neg hs, hbefore] at hafter
                    injection hafter with he
                    rw [he]
                · rw [if_neg hc] at hstep
                  simp only [Option.some.injEq, Prod.mk.injEq] at hstep
                  obtain ⟨hh, -⟩ := hstep
                  have hcsi : h'.connected_session_ids =
                      h.connected_session_ids := by
                    rw [← hh]
                  rw [hcsi, hbefore] at hafter
                  injection hafter with he
                  rw [he]
      exact ⟨fun hne => absurd heq hne, fun _ _ _ => heq⟩
  | timer token =>
      refine ⟨?_, fun _ _ hop => by cases hop⟩
      intro hne
      by_cases h0 : token = SEND_PING_TOKEN
      · subst h0
        simp only [PingHandler.step, notify_send_eq, Option.some.injEq,
          Prod.mk.injEq] at hstep
        obtain ⟨hh, -⟩ := hstep
        have hcsi : h'.connected_session_ids =
            h.connected_session_ids.map (challenge now) := by
          rw [← hh]
        rw [hcsi, getStatus_map_challenge, hbefore] at hafter
        simp only [Option.map_some'] at hafter
        injection hafter with he
        by_cases hp : ps.processing
        · exfalso
          apply hne
          rw [if_pos hp] at he
          rw [he]
        · rw [if_neg hp] at he
          refine ⟨Bool.eq_false_iff.mpr hp, ?_⟩
          rw [← he]
      · by_cases h1 : token = CHECK_TIMEOUT_TOKEN
        · subst h1
          exfalso
          apply hne
          simp only [PingHandler.step, notify_check_eq, Option.some.injEq,
            Prod.mk.injEq] at hstep
          obtain ⟨hh, -⟩ := hstep
          have hcsi : h'.connected_session_ids =
              h.connected_session_ids := by
            rw [← hh]
          rw [hcsi, hbefore] at hafter
          injection hafter with he
          rw [he]
        · exfalso
          simp only [PingHandler.step] at hstep
          unfold PingHandler.notify at hstep
          rw [if_neg h0, if_neg h1] at hstep
          simp at hstep

/-- Witness for C5: the send-ping tick flips the sample idle record and
restamps `last_ping` (the `false` to `true` transition), while an
accepted pong — a receive operation — leaves `last_ping` untouched. -/
theorem last_ping_only_on_challenge_witness :
    ((exH.step (Op.timer 0) 123 =
        some ({ proto_id := 9, interval := 100, timeout := 200,
                connected_session_ids :=
                  [(1, { processing := true, last_ping := 123,
                         peer_id := 42 })] },
              [PingAction.filterBroadcast [1] 9 (PingPayload.Ping 0)]) ∧
      getStatus exH.connected_session_ids 1 = some exPS ∧
      getStatus [(1, { processing := true, last_ping := 123,
                       peer_id := 42 })] 1 =
        some { processing := true, last_ping := 123, peer_id := 42 } ∧
      ({ processing := true, last_ping := 123,
         peer_id := 42 } : PingStatus).last_ping ≠ exPS.last_ping) ∧
      exPS.processing = false ∧
      ({ processing := true, last_ping := 123,
         peer_id := 42 } : PingStatus).processing = true) ∧
    ((exHp.step (Op.receive 1 [2, 5, 0, 0, 0]) 7000000000 =
        some ({ proto_id := 9, interval := 100, timeout := 200,
                connected_session_ids :=
                  [(1, { processing := false, last_ping := 5000000000,
                         peer_id := 42 })] },
              [PingAction.emit (Event.Pong 42 2000000000)]) ∧
      getStatus exHp.connected_session_ids 1 = some exPSp ∧
      getStatus [(1, { processing := false, last_ping := 5000000000,
                       peer_id := 42 })] 1 =
        some { processing := false, last_ping := 5000000000,
               peer_id := 42 }) ∧
      ({ processing := false, last_ping := 5000000000,
         peer_id := 42 } : PingStatus).last_ping = exPSp.last_ping) :=
  ⟨⟨⟨by decide, rfl, rfl, by decide⟩,
    (last_ping_only_on_challenge exH
      { proto_id := 9, interval := 100, timeout := 200,
        connected_session_ids :=
          [(1, { processing := true, last_ping := 123, peer_id := 42 })] }
      (Op.timer 0) 123
      [PingAction.filterBroadcast [1] 9 (PingPayload.Ping 0)]
      1 exPS
      { processing := true, last_ping := 123, peer_id := 42 }
      (by decide) rfl rfl).1 (by decide)⟩,
   ⟨⟨by decide, rfl, rfl⟩,
    (last_ping_only_on_challenge exHp
      { proto_id := 9, interval := 100, timeout := 200,
        connected_session_ids :=
          [(1, { processing := false, last_ping := 5000000000,
                 peer_id := 42 })] }
      (Op.receive 1 [2, 5, 0, 0, 0]) 7000000000
      [PingAction.emit (Event.Pong 42 2000000000)]
      1 exPSp
      { processing := false, last_ping := 5000000000, peer_id := 42 }
      (by decide) rfl rfl).2 1 [2, 5, 0, 0, 0] rfl⟩⟩
